import Mathlib

/-!
Verification development for the sign-up page in src/pages/index.tsx.

The page has three independent pieces, each embedded below directly from
the source:

1. the zod validation schema built in the component (fields firstName,
   middleName, lastName, email, password);
2. the score lookup table scoreMap and the conditional rendering of the
   strength block;
3. the debounce-and-fetch pipeline: useDebounce over the watched fields,
   the debouncedPassword state, and the useSWR key construction, modelled
   as a small event-driven state machine driven by timed field-change
   events.
-/

namespace RainSignup

/-- Split a character list at the first commercial-at sign, when one is
present: the part before it and the part after it. -/
def splitAtSign : List Char → Option (List Char × List Char)
  | [] => none
  | c :: rest =>
      if c = '@' then some ([], rest)
      else
        match splitAtSign rest with
        | none => none
        | some (l, r) => some (c :: l, r)

/-- Modelled from the spec: the email-format matching rule applied by the
schema (the matching routine itself lives in the zod library, not under
src/). A string is well formed when it has exactly one commercial-at
sign, a non-empty local part, and a non-empty domain that contains a dot
and does not start or end with one. All claims on the schema quantify
relative to this rule. -/
def emailFormat (s : String) : Bool :=
  match splitAtSign s.toList with
  | none => false
  | some (loc, dom) =>
      !loc.isEmpty && !dom.isEmpty && dom.contains '.' && !dom.contains '@' &&
        dom.head? != some '.' && dom.getLast? != some '.'

/-- Candidate input to the validation schema. Each field is either absent
(undefined) or a value of the primitive type the schema declares for it:
firstName is numeric, the rest are strings. -/
structure Candidate where
  firstName : Option ℚ
  middleName : Option String
  lastName : Option String
  email : Option String
  password : Option String

/-- Default message zod attaches to a missing required field. -/
def requiredMsg : String := "Required"

/-- Check for the schema line firstName := z.number().min(10): absent
values fail the required check, present numbers below 10 fail the minimum
check. -/
def checkFirstName : Option ℚ → List (String × String)
  | none => [( "firstName", requiredMsg )]
  | some n =>
      if n < 10 then [( "firstName", "Number must be greater than or equal to 10" )]
      else []

/-- Check for a bare z.string() field (middleName, lastName, password):
only absence fails; any string, the empty one included, passes. -/
def checkStringField (field : String) : Option String → List (String × String)
  | none => [( field, requiredMsg )]
  | some _ => []

/-- Check for the schema line email := z.string().email with the custom
message key email_invalid. -/
def checkEmail : Option String → List (String × String)
  | none => [( "email", requiredMsg )]
  | some s => if emailFormat s then [] else [( "email", "email_invalid" )]

/-- Issue list produced by the schema on a candidate, fields in the order
the z.object literal declares them. -/
def validate (c : Candidate) : List (String × String) :=
  checkFirstName c.firstName ++
    checkStringField "middleName" c.middleName ++
    checkStringField "lastName" c.lastName ++
    checkEmail c.email ++
    checkStringField "password" c.password

/-- True when the issue list carries an entry for the named field, the
shape the resolver exposes as the errors object. -/
def hasError (c : Candidate) (field : String) : Bool :=
  (validate c).any (fun p => p.1 == field)

/-- Entry of the scoreMap table: translation key, progress percentage
(the field is called score in the source object) and color scheme. -/
structure Tier where
  key : String
  score : Nat
  color : String
deriving DecidableEq

/-- Lookup in the scoreMap object literal. A JavaScript property access
scoreMap[score] yields the entry when the number prints as one of the
keys 0, 1, 2, 3, 4 and undefined otherwise, which for numeric scores is
exact equality with one of those integers. -/
def scoreMap (q : ℚ) : Option Tier :=
  if q = 0 then some ⟨ "very_weak", 20, "red" ⟩
  else if q = 1 then some ⟨ "weak", 40, "orange" ⟩
  else if q = 2 then some ⟨ "average", 60, "yellow" ⟩
  else if q = 3 then some ⟨ "strong", 80, "cyan" ⟩
  else if q = 4 then some ⟨ "very_strong", 100, "green" ⟩
  else none

/-- Response body of the scoring endpoint as the component reads it: the
numeric score field. -/
structure ScoreResponse where
  score : ℚ

/-- Rendered strength section: progress value, color scheme, label key
and the three static hint lines. -/
structure StrengthBlock where
  progress : Nat
  color : String
  label : String
  hints : List String
deriving DecidableEq

/-- Static hint list rendered under the meter. -/
def hintLines : List String := ["not_repetitive", "not_include_name", "min_required 8"]

/-- Conditional rendering of the strength section: score := data?.score,
then scoreMap[score]?.key guards the whole block (a truthy key renders
progress bar, label and hints; otherwise nothing is rendered). -/
def strengthBlock (data : Option ScoreResponse) : Option StrengthBlock :=
  match data with
  | none => none
  | some d =>
      match scoreMap d.score with
      | none => none
      | some t => if t.key = "" then none else some ⟨ t.score, t.color, t.key, hintLines ⟩

/-- Watched form fields: password plus the four related-term fields, in
the order watch lists them. -/
inductive FieldName
  | password
  | email
  | firstName
  | lastName
  | middleName
deriving DecidableEq

/-- Current values of the watched fields; unset inputs read as the empty
string, which the truthiness filters treat exactly like undefined. -/
structure FormFields where
  password : String
  email : String
  firstName : String
  lastName : String
  middleName : String
deriving DecidableEq

/-- Point update of one watched field, as a keystroke leaves it. -/
def setField (fs : FormFields) : FieldName → String → FormFields
  | FieldName.password, v => { fs with password := v }
  | FieldName.email, v => { fs with email := v }
  | FieldName.firstName, v => { fs with firstName := v }
  | FieldName.lastName, v => { fs with lastName := v }
  | FieldName.middleName, v => { fs with middleName := v }

/-- Value list of watch applied to email, firstName, lastName,
middleName, in that order. -/
def relatedList (fs : FormFields) : List String :=
  [fs.email, fs.firstName, fs.lastName, fs.middleName]

/-- Key handed to useSWR when it is not null: the endpoint URL, the
debounced password, and the related terms filtered to truthy values. -/
structure SWRKey where
  url : String
  password : String
  terms : List String
deriving DecidableEq

/-- Fixed scoring endpoint written literally into the useSWR key. -/
def endpointURL : String := "https://dev-gcc.rain-test.com/api/1/password/strength"

/-- Key expression of the useSWR call: null while debouncedPassword is
falsy, otherwise the triple with the live related terms filtered to
non-empty values. -/
def swrKey (dp : String) (fs : FormFields) : Option SWRKey :=
  if dp = "" then none
  else some ⟨ endpointURL, dp, (relatedList fs).filter (fun e => e != "") ⟩

/-- State of the page between events: watched field values, the
debouncedPassword useState cell, the pending useDebounce deadline, plus
the observation record of the run: committed snapshot passwords, timer
firings (time and the password seen by the callback), scoring requests
issued, and the key of the previous render. -/
structure RunState where
  fields : FormFields
  debouncedPassword : String
  deadline : Option Nat
  commits : List String
  fires : List (Nat × String)
  requests : List SWRKey
  lastKey : Option SWRKey

/-- Render step: recompute the useSWR key from the current state; a
change of the key to a new non-null value starts one fetch (an unchanged
key reuses the in-flight or cached call and issues nothing). -/
def render (st : RunState) : RunState :=
  match swrKey st.debouncedPassword st.fields with
  | none => { st with lastKey := none }
  | some k =>
      if some k = st.lastKey then st
      else { st with lastKey := some k, requests := st.requests ++ [k] }

/-- Timer firing at time t: the useDebounce callback runs with the field
values of the render that last armed the timer, which are the current
values since no change happened in between. Under the truthiness guard
it commits the password into debouncedPassword and the page re-renders;
with a falsy password nothing is committed and no state changes. -/
def fire (t : Nat) (st : RunState) : RunState :=
  if st.fields.password = "" then
    { st with deadline := none, fires := st.fires ++ [(t, st.fields.password)] }
  else
    render { st with
      deadline := none,
      fires := st.fires ++ [(t, st.fields.password)],
      debouncedPassword := st.fields.password,
      commits := st.commits ++ [st.fields.password] }

/-- Fire the pending timer first when its deadline has been reached by
the time of the next event. -/
def firePending (st : RunState) (t : Nat) : RunState :=
  match st.deadline with
  | some d => if d ≤ t then fire d st else st
  | none => st

/-- Apply one field change: the field is updated, the 1000ms debounce
timer restarts, and the page re-renders. -/
def applyChange (st : RunState) (e : Nat × FieldName × String) : RunState :=
  render { st with fields := setField st.fields e.2.1 e.2.2, deadline := some (e.1 + 1000) }

/-- One field-change event (time, field, new value): a timer whose
deadline has been reached fires first, then the change is applied. -/
def step (st : RunState) (e : Nat × FieldName × String) : RunState :=
  applyChange (firePending st e.1) e

/-- State at mount (time 0): empty fields, empty debouncedPassword, the
debounce timer armed by the initial render, null key, nothing observed. -/
def initState : RunState :=
  { fields := ⟨ "", "", "", "", "" ⟩, debouncedPassword := "", deadline := some 1000,
    commits := [], fires := [], requests := [], lastKey := none }

/-- Event processing without the trailing quiet period. -/
def runRaw (tr : List (Nat × FieldName × String)) : RunState :=
  tr.foldl step initState

/-- Let a still-pending timer fire after the last event. -/
def finalFire (st : RunState) : RunState :=
  match st.deadline with
  | some d => fire d st
  | none => st

/-- Full run: process the events in order, then the trailing quiet
period during which the remaining timer fires. -/
def run (tr : List (Nat × FieldName × String)) : RunState :=
  finalFire (runRaw tr)

/-- Body of the POST request the fetcher sends. -/
structure HttpBody where
  password : String
  related_terms : List String
deriving DecidableEq

/-- Outbound HTTP call description. The headers list carries whatever
the caller adds beyond content defaults; timeout none and retries 0 are
the axios defaults left untouched by the call site. -/
structure HttpRequest where
  method : String
  url : String
  body : HttpBody
  headers : List (String × String)
  timeout : Option Nat
  retries : Nat
deriving DecidableEq

/-- Fetcher from the source: axios.post of the url with body fields
password and related_terms, no further configuration. -/
def fetcher (url password : String) (relatedTerms : List String) : HttpRequest :=
  { method := "POST", url := url,
    body := { password := password, related_terms := relatedTerms },
    headers := [], timeout := none, retries := 0 }

/-- Trace made only of password changes, one per timed value. -/
def pwTrace (tvs : List (Nat × String)) : List (Nat × FieldName × String) :=
  tvs.map (fun p => (p.1, FieldName.password, p.2))

/-- Spacing condition of the debounce claim: strictly increasing times
with consecutive gaps under 1000ms. -/
def spacedUnder : List (Nat × String) → Bool
  | [] => true
  | [_] => true
  | a :: b :: rest => (a.1 < b.1 && b.1 < a.1 + 1000) && spacedUnder (b :: rest)

/-- Invariant tying requests to committed snapshots: the debounced
password is empty or was committed, and every issued request targets the
fixed endpoint, carries a committed password, and carries the filtered
related-term list of some render. -/
def ReqInv (st : RunState) : Prop :=
  (st.debouncedPassword = "" ∨ st.debouncedPassword ∈ st.commits) ∧
    ∀ r ∈ st.requests, r.url = endpointURL ∧ r.password ∈ st.commits ∧
      ∃ fs : FormFields, r.terms = (relatedList fs).filter (fun e => e != "")

/-- Invariant of the commit guard: the committed snapshots are exactly
the passwords of the timer firings whose password was non-empty. -/
def commitsAligned (st : RunState) : Prop :=
  st.commits = (st.fires.filter (fun f => f.2 != "")).map Prod.snd

/-- Invariant of the debounced state cell: it always holds the most
recently committed snapshot password, the empty string before any. -/
def dpAligned (st : RunState) : Prop :=
  st.debouncedPassword = (st.commits.getLast?).getD ""

/-- State reached after a password change at time t to value v while no
snapshot was ever committed, with the firing record F accumulated so
far: only the password field is set and a fresh timer is pending. -/
def midState (t : Nat) (v : String) (F : List (Nat × String)) : RunState :=
  { fields := ⟨ v, "", "", "", "" ⟩, debouncedPassword := "", deadline := some (t + 1000),
    commits := [], fires := F, requests := [], lastKey := none }

/-! Helper lemmas on the schema checks: which field keys each check can
emit into the issue list. -/

theorem any_checkFirstName_ne (x : Option ℚ) (k : String)
    (h : (("firstName" : String) == k) = false) :
    (checkFirstName x).any (fun p => p.1 == k) = false := by
  cases x with
  | none => simp [checkFirstName, h]
  | some n =>
      simp only [checkFirstName]
      split <;> simp [h]

theorem any_checkStringField_ne (f k : String) (x : Option String) (h : (f == k) = false) :
    (checkStringField f x).any (fun p => p.1 == k) = false := by
  cases x <;> simp [checkStringField, h]

theorem any_checkStringField_none (f : String) :
    (checkStringField f none).any (fun p => p.1 == f) = true := by
  simp [checkStringField]

theorem any_checkStringField_some (f s k : String) :
    (checkStringField f (some s)).any (fun p => p.1 == k) = false := by
  simp [checkStringField]

theorem any_checkEmail_ne (x : Option String) (k : String)
    (h : (("email" : String) == k) = false) :
    (checkEmail x).any (fun p => p.1 == k) = false := by
  cases x with
  | none => simp [checkEmail, h]
  | some s =>
      simp only [checkEmail]
      split <;> simp [h]

/-- C2: the tier mapping is the pure five-entry lookup table: scores 0
through 4 render the very_weak through very_strong tiers with
percentages 20 through 100 and colors red, orange, yellow, cyan, green,
while a score outside the closed interval from 0 to 4, or an absent
score, renders no tier at all. -/
theorem scoreMap_tier_table :
    strengthBlock (some ⟨ 0 ⟩) = some ⟨ 20, "red", "very_weak", hintLines ⟩ ∧
    strengthBlock (some ⟨ 1 ⟩) = some ⟨ 40, "orange", "weak", hintLines ⟩ ∧
    strengthBlock (some ⟨ 2 ⟩) = some ⟨ 60, "yellow", "average", hintLines ⟩ ∧
    strengthBlock (some ⟨ 3 ⟩) = some ⟨ 80, "cyan", "strong", hintLines ⟩ ∧
    strengthBlock (some ⟨ 4 ⟩) = some ⟨ 100, "green", "very_strong", hintLines ⟩ ∧
    (∀ q : ℚ, q < 0 ∨ 4 < q → strengthBlock (some ⟨ q ⟩) = none) ∧
    strengthBlock none = none := by
  refine ⟨ by decide, by decide, by decide, by decide, by decide, ?_, rfl ⟩
  intro q hq
  have h0 : q ≠ 0 := by rintro rfl; rcases hq with h | h <;> norm_num at h
  have h1 : q ≠ 1 := by rintro rfl; rcases hq with h | h <;> norm_num at h
  have h2 : q ≠ 2 := by rintro rfl; rcases hq with h | h <;> norm_num at h
  have h3 : q ≠ 3 := by rintro rfl; rcases hq with h | h <;> norm_num at h
  have h4 : q ≠ 4 := by rintro rfl; rcases hq with h | h <;> norm_num at h
  simp [strengthBlock, scoreMap, h0, h1, h2, h3, h4]

/-- Witness for C2: score 5 lies outside the table and renders nothing. -/
theorem scoreMap_tier_table_witness : strengthBlock (some ⟨ 5 ⟩) = none :=
  scoreMap_tier_table.2.2.2.2.2.1 5 (Or.inr (by norm_num))

/-- C10: the tier lookup is defined only at the five integer scores; any
other rational score, the ones strictly between 0 and 4 included,
renders exactly what an absent score renders, namely nothing. -/
theorem scoreMap_integer_domain (q : ℚ) (h0 : q ≠ 0) (h1 : q ≠ 1) (h2 : q ≠ 2)
    (h3 : q ≠ 3) (h4 : q ≠ 4) :
    strengthBlock (some ⟨ q ⟩) = none ∧ strengthBlock (some ⟨ q ⟩) = strengthBlock none := by
  constructor <;> simp [strengthBlock, scoreMap, h0, h1, h2, h3, h4]

/-- Witness for C10: the score 5/2 between 0 and 4 renders nothing. -/
theorem scoreMap_integer_domain_witness :
    strengthBlock (some ⟨ (5 / 2 : ℚ) ⟩) = none ∧
    strengthBlock (some ⟨ (5 / 2 : ℚ) ⟩) = strengthBlock none :=
  scoreMap_integer_domain (5 / 2) (by norm_num) (by norm_num) (by norm_num)
    (by norm_num) (by norm_num)

/-- Counterexample to C3 as stated: a candidate absent its middleName and
otherwise fully valid still gets an error entry for middleName, because
the schema declares middleName as z.string() without optional. -/
theorem middleName_absent_errors :
    hasError ⟨ some 10, none, some "Doe", some "a@b.cd", some "pw" ⟩ "middleName" = true ∧
    validate ⟨ some 10, none, some "Doe", some "a@b.cd", some "pw" ⟩ =
      [( "middleName", requiredMsg )] := by decide

/-- C3 amended: middleName is a required string with no further
constraints: an absent middleName always yields an error entry for the
field, and any present string, the empty one included, never does. -/
theorem middleName_required_no_constraints (c : Candidate) :
    (c.middleName = none → hasError c "middleName" = true) ∧
    (∀ s, c.middleName = some s → hasError c "middleName" = false) := by
  have hf : (checkFirstName c.firstName).any (fun p => p.1 == "middleName") = false :=
    any_checkFirstName_ne _ _ (by decide)
  have hl : (checkStringField "lastName" c.lastName).any (fun p => p.1 == "middleName") = false :=
    any_checkStringField_ne _ _ _ (by decide)
  have he : (checkEmail c.email).any (fun p => p.1 == "middleName") = false :=
    any_checkEmail_ne _ _ (by decide)
  have hp : (checkStringField "password" c.password).any (fun p => p.1 == "middleName") = false :=
    any_checkStringField_ne _ _ _ (by decide)
  constructor
  · intro h
    simp [hasError, validate, List.any_append, hf, hl, he, hp, h, any_checkStringField_none]
  · intro s h
    simp [hasError, validate, List.any_append, hf, hl, he, hp, h, any_checkStringField_some]

/-- Witness for the amended C3 at a concrete candidate. -/
theorem middleName_required_no_constraints_witness :
    hasError ⟨ some 11, none, some "Lee", some "x@y.zz", some "secret" ⟩ "middleName" = true ∧
    hasError ⟨ some 11, some "", some "Lee", some "x@y.zz", some "secret" ⟩ "middleName" = false :=
  ⟨ (middleName_required_no_constraints _).1 rfl,
    (middleName_required_no_constraints _).2 "" rfl ⟩

/-- Counterexample to C4 as stated: this candidate meets every condition
the claim lists (lastName, email, password non-empty, email well formed,
firstName at least 10) yet validation rejects it, because its middleName
is absent and the schema requires middleName. -/
theorem valid_fields_still_rejected :
    validate ⟨ some 12, none, some "Smith", some "joe@mail.net", some "hunter2" ⟩ =
      [( "middleName", requiredMsg )] ∧
    emailFormat "joe@mail.net" = true ∧ (10 : ℚ) ≤ 12 := by decide

/-- C4 amended: a candidate whose lastName, email and password are
present non-empty strings, whose email is well formed, whose firstName
is a number at least 10, and whose middleName is present (any string),
validates with no errors. -/
theorem schema_accepts_valid (c : Candidate) (n : ℚ) (m l e p : String)
    (hf : c.firstName = some n) (hn : 10 ≤ n)
    (hm : c.middleName = some m)
    (hl : c.lastName = some l) (hl0 : l ≠ "")
    (he : c.email = some e) (hef : emailFormat e = true)
    (hp : c.password = some p) (hp0 : p ≠ "") :
    validate c = [] := by
  simp [validate, hf, hm, hl, he, hp, checkFirstName, checkStringField, checkEmail,
    hef, not_lt.mpr hn]

/-- Witness for the amended C4 at a concrete candidate. -/
theorem schema_accepts_valid_witness :
    validate ⟨ some 25, some "Q", some "Adams", some "ann@site.com", some "pass" ⟩ = [] :=
  schema_accepts_valid _ 25 "Q" "Adams" "ann@site.com" "pass" rfl (by norm_num) rfl rfl
    (by decide) rfl (by decide) rfl (by decide)

/-- C8: a present empty string passes every bare z.string() field: an
empty lastName, middleName or password yields no error entry for that
field, only absence fails the required check, and a full form whose
password is the empty string validates with no errors at all. -/
theorem empty_string_passes (c : Candidate) :
    (c.lastName = some "" → hasError c "lastName" = false) ∧
    (c.middleName = some "" → hasError c "middleName" = false) ∧
    (c.password = some "" → hasError c "password" = false) ∧
    (c.password = none → hasError c "password" = true) ∧
    validate ⟨ some 10, some "", some "", some "valid@mail.org", some "" ⟩ = [] := by
  refine ⟨ ?_, ?_, ?_, ?_, by decide ⟩
  · intro h
    have hf : (checkFirstName c.firstName).any (fun p => p.1 == "lastName") = false :=
      any_checkFirstName_ne _ _ (by decide)
    have hm : (checkStringField "middleName" c.middleName).any (fun p => p.1 == "lastName") = false :=
      any_checkStringField_ne _ _ _ (by decide)
    have he : (checkEmail c.email).any (fun p => p.1 == "lastName") = false :=
      any_checkEmail_ne _ _ (by decide)
    have hp : (checkStringField "password" c.password).any (fun p => p.1 == "lastName") = false :=
      any_checkStringField_ne _ _ _ (by decide)
    simp [hasError, validate, List.any_append, hf, hm, he, hp, h, any_checkStringField_some]
  · intro h
    have hf : (checkFirstName c.firstName).any (fun p => p.1 == "middleName") = false :=
      any_checkFirstName_ne _ _ (by decide)
    have hl : (checkStringField "lastName" c.lastName).any (fun p => p.1 == "middleName") = false :=
      any_checkStringField_ne _ _ _ (by decide)
    have he : (checkEmail c.email).any (fun p => p.1 == "middleName") = false :=
      any_checkEmail_ne _ _ (by decide)
    have hp : (checkStringField "password" c.password).any (fun p => p.1 == "middleName") = false :=
      any_checkStringField_ne _ _ _ (by decide)
    simp [hasError, validate, List.any_append, hf, hl, he, hp, h, any_checkStringField_some]
  · intro h
    have hf : (checkFirstName c.firstName).any (fun p => p.1 == "password") = false :=
      any_checkFirstName_ne _ _ (by decide)
    have hm : (checkStringField "middleName" c.middleName).any (fun p => p.1 == "password") = false :=
      any_checkStringField_ne _ _ _ (by decide)
    have hl : (checkStringField "lastName" c.lastName).any (fun p => p.1 == "password") = false :=
      any_checkStringField_ne _ _ _ (by decide)
    have he : (checkEmail c.email).any (fun p => p.1 == "password") = false :=
      any_checkEmail_ne _ _ (by decide)
    simp [hasError, validate, List.any_append, hf, hm, hl, he, h, any_checkStringField_some]
  · intro h
    have hf : (checkFirstName c.firstName).any (fun p => p.1 == "password") = false :=
      any_checkFirstName_ne _ _ (by decide)
    have hm : (checkStringField "middleName" c.middleName).any (fun p => p.1 == "password") = false :=
      any_checkStringField_ne _ _ _ (by decide)
    have hl : (checkStringField "lastName" c.lastName).any (fun p => p.1 == "password") = false :=
      any_checkStringField_ne _ _ _ (by decide)
    have he : (checkEmail c.email).any (fun p => p.1 == "password") = false :=
      any_checkEmail_ne _ _ (by decide)
    simp [hasError, validate, List.any_append, hf, hm, hl, he, h, any_checkStringField_none]

/-- Witness for C8 at a concrete candidate with empty strings. -/
theorem empty_string_passes_witness :
    hasError ⟨ some 10, some "", some "", some "a@b.cd", some "" ⟩ "password" = false :=
  (empty_string_passes _).2.2.1 rfl

/-! Projection lemmas: a render recomputes the key and can issue a
request, but never touches fields, timer, debounced state or the
observation record of commits and fires. -/

theorem render_commits (st : RunState) : (render st).commits = st.commits := by
  unfold render
  split
  · rfl
  · split <;> rfl

theorem render_fires (st : RunState) : (render st).fires = st.fires := by
  unfold render
  split
  · rfl
  · split <;> rfl

theorem render_dp (st : RunState) : (render st).debouncedPassword = st.debouncedPassword := by
  unfold render
  split
  · rfl
  · split <;> rfl

theorem render_fields (st : RunState) : (render st).fields = st.fields := by
  unfold render
  split
  · rfl
  · split <;> rfl

theorem render_deadline (st : RunState) : (render st).deadline = st.deadline := by
  unfold render
  split
  · rfl
  · split <;> rfl

/-! Preservation of ReqInv along the machine. -/

theorem reqInv_render (st : RunState) (h : ReqInv st) : ReqInv (render st) := by
  unfold render
  split
  · exact ⟨ h.1, h.2 ⟩
  · rename_i k hk
    by_cases he : some k = st.lastKey
    · rw [if_pos he]; exact h
    · rw [if_neg he]
      have hdp : st.debouncedPassword ≠ "" ∧
          k = ⟨ endpointURL, st.debouncedPassword,
            (relatedList st.fields).filter (fun e => e != "") ⟩ := by
        unfold swrKey at hk
        by_cases hd : st.debouncedPassword = ""
        · rw [if_pos hd] at hk; cases hk
        · rw [if_neg hd] at hk
          exact ⟨ hd, (Option.some_injective _ hk).symm ⟩
      constructor
      · exact h.1
      · intro r hr
        rcases List.mem_append.mp hr with hr | hr
        · exact h.2 r hr
        · have hrk : r = k := by simpa using hr
          subst hrk
          rcases hdp with ⟨ hd, hk2 ⟩
          subst hk2
          refine ⟨ rfl, ?_, ⟨ st.fields, rfl ⟩ ⟩
          rcases h.1 with h1 | h1
          · exact absurd h1 hd
          · exact h1

theorem reqInv_fire (t : Nat) (st : RunState) (h : ReqInv st) : ReqInv (fire t st) := by
  unfold fire
  by_cases hp : st.fields.password = ""
  · rw [if_pos hp]; exact ⟨ h.1, h.2 ⟩
  · rw [if_neg hp]
    apply reqInv_render
    constructor
    · right
      exact List.mem_append.mpr (Or.inr (by simp))
    · intro r hr
      obtain ⟨ hu, hpw, ht ⟩ := h.2 r hr
      exact ⟨ hu, List.mem_append.mpr (Or.inl hpw), ht ⟩

theorem reqInv_firePending (st : RunState) (t : Nat) (h : ReqInv st) :
    ReqInv (firePending st t) := by
  unfold firePending
  split
  · rename_i d hdl
    by_cases hd : d ≤ t
    · rw [if_pos hd]; exact reqInv_fire d st h
    · rw [if_neg hd]; exact h
  · exact h

theorem reqInv_applyChange (st : RunState) (e : Nat × FieldName × String) (h : ReqInv st) :
    ReqInv (applyChange st e) := by
  unfold applyChange
  exact reqInv_render _ ⟨ h.1, h.2 ⟩

theorem reqInv_step (st : RunState) (e : Nat × FieldName × String) (h : ReqInv st) :
    ReqInv (step st e) :=
  reqInv_applyChange _ _ (reqInv_firePending _ _ h)

theorem reqInv_foldl (l : List (Nat × FieldName × String)) :
    ∀ st : RunState, ReqInv st → ReqInv (l.foldl step st) := by
  induction l with
  | nil => intro st h; exact h
  | cons a l ih => intro st h; exact ih _ (reqInv_step st a h)

theorem reqInv_init : ReqInv initState := by
  constructor
  · left; rfl
  · intro r hr
    simp [initState] at hr

theorem reqInv_run (tr : List (Nat × FieldName × String)) : ReqInv (run tr) := by
  unfold run finalFire
  split
  · rename_i d hdl
    exact reqInv_fire d _ (reqInv_foldl tr initState reqInv_init)
  · exact reqInv_foldl tr initState reqInv_init

/-! Preservation of commitsAligned: commits record exactly the firings
whose password was non-empty. -/

theorem commitsAligned_render (st : RunState) (h : commitsAligned st) :
    commitsAligned (render st) := by
  unfold commitsAligned
  rw [render_commits, render_fires]
  exact h

theorem commitsAligned_fire (t : Nat) (st : RunState) (h : commitsAligned st) :
    commitsAligned (fire t st) := by
  unfold fire
  by_cases hp : st.fields.password = ""
  · rw [if_pos hp]
    unfold commitsAligned at h ⊢
    simp [List.filter_append, hp, h]
  · rw [if_neg hp]
    apply commitsAligned_render
    unfold commitsAligned at h ⊢
    simp [List.filter_append, hp, h]

theorem commitsAligned_firePending (st : RunState) (t : Nat) (h : commitsAligned st) :
    commitsAligned (firePending st t) := by
  unfold firePending
  split
  · rename_i d hdl
    by_cases hd : d ≤ t
    · rw [if_pos hd]; exact commitsAligned_fire d st h
    · rw [if_neg hd]; exact h
  · exact h

theorem commitsAligned_applyChange (st : RunState) (e : Nat × FieldName × String)
    (h : commitsAligned st) : commitsAligned (applyChange st e) := by
  unfold applyChange
  apply commitsAligned_render
  exact h

theorem commitsAligned_step (st : RunState) (e : Nat × FieldName × String)
    (h : commitsAligned st) : commitsAligned (step st e) :=
  commitsAligned_applyChange _ _ (commitsAligned_firePending _ _ h)

theorem commitsAligned_foldl (l : List (Nat × FieldName × String)) :
    ∀ st : RunState, commitsAligned st → commitsAligned (l.foldl step st) := by
  induction l with
  | nil => intro st h; exact h
  | cons a l ih => intro st h; exact ih _ (commitsAligned_step st a h)

theorem commitsAligned_run (tr : List (Nat × FieldName × String)) : commitsAligned (run tr) := by
  unfold run finalFire
  split
  · rename_i d hdl
    exact commitsAligned_fire d _ (commitsAligned_foldl tr initState rfl)
  · exact commitsAligned_foldl tr initState rfl

/-! Preservation of dpAligned: the debounced cell always holds the last
committed snapshot password. -/

theorem dpAligned_render (st : RunState) (h : dpAligned st) : dpAligned (render st) := by
  unfold dpAligned
  rw [render_dp, render_commits]
  exact h

theorem dpAligned_fire (t : Nat) (st : RunState) (h : dpAligned st) : dpAligned (fire t st) := by
  unfold fire
  by_cases hp : st.fields.password = ""
  · rw [if_pos hp]; exact h
  · rw [if_neg hp]
    apply dpAligned_render
    unfold dpAligned
    simp [List.getLast?_concat]

theorem dpAligned_firePending (st : RunState) (t : Nat) (h : dpAligned st) :
    dpAligned (firePending st t) := by
  unfold firePending
  split
  · rename_i d hdl
    by_cases hd : d ≤ t
    · rw [if_pos hd]; exact dpAligned_fire d st h
    · rw [if_neg hd]; exact h
  · exact h

theorem dpAligned_step (st : RunState) (e : Nat × FieldName × String) (h : dpAligned st) :
    dpAligned (step st e) := by
  unfold step applyChange
  apply dpAligned_render
  exact dpAligned_firePending _ _ h

theorem dpAligned_foldl (l : List (Nat × FieldName × String)) :
    ∀ st : RunState, dpAligned st → dpAligned (l.foldl step st) := by
  induction l with
  | nil => intro st h; exact h
  | cons a l ih => intro st h; exact ih _ (dpAligned_step st a h)

theorem dpAligned_run (tr : List (Nat × FieldName × String)) : dpAligned (run tr) := by
  unfold run finalFire
  split
  · rename_i d hdl
    exact dpAligned_fire d _ (dpAligned_foldl tr initState rfl)
  · exact dpAligned_foldl tr initState rfl

/-! Persistence of a non-empty debounced password: no step of the
machine ever puts the empty string back into the debounced cell. -/

theorem dp_ne_fire (t : Nat) (st : RunState) (h : st.debouncedPassword ≠ "") :
    (fire t st).debouncedPassword ≠ "" := by
  unfold fire
  by_cases hp : st.fields.password = ""
  · rw [if_pos hp]; exact h
  · rw [if_neg hp]
    rw [render_dp]
    exact hp

theorem dp_ne_firePending (st : RunState) (t : Nat) (h : st.debouncedPassword ≠ "") :
    (firePending st t).debouncedPassword ≠ "" := by
  unfold firePending
  split
  · rename_i d hdl
    by_cases hd : d ≤ t
    · rw [if_pos hd]; exact dp_ne_fire d st h
    · rw [if_neg hd]; exact h
  · exact h

theorem dp_ne_step (st : RunState) (e : Nat × FieldName × String)
    (h : st.debouncedPassword ≠ "") : (step st e).debouncedPassword ≠ "" := by
  unfold step applyChange
  rw [render_dp]
  exact dp_ne_firePending _ _ h

theorem dp_ne_foldl (l : List (Nat × FieldName × String)) :
    ∀ st : RunState, st.debouncedPassword ≠ "" →
      (l.foldl step st).debouncedPassword ≠ "" := by
  induction l with
  | nil => intro st h; exact h
  | cons a l ih => intro st h; exact ih _ (dp_ne_step st a h)

theorem dp_ne_finalFire (st : RunState) (h : st.debouncedPassword ≠ "") :
    (finalFire st).debouncedPassword ≠ "" := by
  unfold finalFire
  split
  · rename_i d hdl
    exact dp_ne_fire d st h
  · exact h

/-! Debounce run over a pure password-typing burst. -/

theorem step_mid (t t2 : Nat) (v v2 : String) (F : List (Nat × String)) (h : t2 < t + 1000) :
    step (midState t v F) (t2, FieldName.password, v2) = midState t2 v2 F := by
  unfold step firePending applyChange render swrKey setField midState
  simp [Nat.not_le.mpr h]

theorem step_init (t0 : Nat) (v0 : String) :
    step initState (t0, FieldName.password, v0) =
      midState t0 v0 (if 1000 ≤ t0 then [(1000, "")] else []) := by
  unfold step firePending initState
  by_cases h : 1000 ≤ t0
  · rw [if_pos h]
    simp only [if_pos h]
    unfold fire applyChange render swrKey setField midState
    simp
  · rw [if_neg h]
    simp only [if_neg h]
    unfold applyChange render swrKey setField midState
    simp

theorem foldl_mid (rest : List (Nat × String)) :
    ∀ (t : Nat) (v : String) (F : List (Nat × String)),
      spacedUnder ((t, v) :: rest) = true →
      List.foldl step (midState t v F) (pwTrace rest) =
        midState (rest.getLastD (t, v)).1 (rest.getLastD (t, v)).2 F := by
  induction rest with
  | nil => intro t v F _; rfl
  | cons b rest ih =>
      intro t v F h
      have hsp : (t < b.1 ∧ b.1 < t + 1000) ∧ spacedUnder (b :: rest) = true := by
        unfold spacedUnder at h
        rcases rest with _ | ⟨ c, rest2 ⟩
        · exact ⟨ by simpa [spacedUnder] using h, rfl ⟩
        · simpa using h
      have hstep : pwTrace (b :: rest) = (b.1, FieldName.password, b.2) :: pwTrace rest := rfl
      rw [hstep, List.foldl_cons, step_mid t b.1 v b.2 F hsp.1.2, List.getLastD_cons]
      exact ih b.1 b.2 F hsp.2

/-- Counterexample to C5 as stated: the password changes to a and then,
400ms later, to the empty string; the spacing condition of the claim
holds, yet no snapshot at all is emitted for the sequence, because the
commit-time guard suppresses the empty final value, so the run does not
emit exactly one snapshot. -/
theorem debounce_empty_final_no_snapshot :
    spacedUnder [(0, "a"), (400, "")] = true ∧
    (run (pwTrace [(0, "a"), (400, "")])).commits = [] := by decide

/-- C5 amended: for every non-empty sequence of password changes each
spaced under 1000ms from the previous one, the run emits exactly one
StableSnapshot containing only the last password value of the sequence
when that value is non-empty, and no snapshot at all when the last value
is empty. -/
theorem debounce_trailing_edge (t0 : Nat) (v0 : String) (rest : List (Nat × String))
    (h : spacedUnder ((t0, v0) :: rest) = true) :
    (run (pwTrace ((t0, v0) :: rest))).commits =
      if (rest.getLastD (t0, v0)).2 = "" then [] else [(rest.getLastD (t0, v0)).2] := by
  unfold run runRaw
  have hcons : pwTrace ((t0, v0) :: rest) = (t0, FieldName.password, v0) :: pwTrace rest := rfl
  rw [hcons, List.foldl_cons, step_init, foldl_mid rest t0 v0 _ h]
  generalize rest.getLastD (t0, v0) = L
  obtain ⟨ tL, vL ⟩ := L
  by_cases hv : vL = ""
  · rw [if_pos hv]
    unfold finalFire midState fire
    simp [hv]
  · rw [if_neg hv]
    unfold finalFire midState fire
    simp [hv, render_commits]

/-- Witness for the amended C5: typing a then ab 500ms later commits
exactly the final value ab. -/
theorem debounce_trailing_edge_witness :
    (run (pwTrace [(0, "a"), (500, "ab")])).commits = ["ab"] := by
  have h := debounce_trailing_edge 0 "a" [(500, "ab")] (by decide)
  simpa using h

/-- C6: the empty-password guard runs at commit time: the committed
snapshots of any run are exactly the timer firings whose password was
non-empty at the moment of firing, so a firing that sees an empty
password emits no snapshot, and no issued request ever carries an empty
password. -/
theorem empty_password_commit_guard (tr : List (Nat × FieldName × String)) :
    (run tr).commits = (((run tr).fires).filter (fun f => f.2 != "")).map Prod.snd ∧
    ∀ r ∈ (run tr).requests, r.password ≠ "" := by
  refine ⟨ commitsAligned_run tr, ?_ ⟩
  intro r hr
  have hc : r.password ∈ (run tr).commits := ((reqInv_run tr).2 r hr).2.1
  rw [commitsAligned_run tr] at hc
  obtain ⟨ f, hf, hfp ⟩ := List.mem_map.mp hc
  have hne : (f.2 != "") = true := (List.mem_filter.mp hf).2
  rw [← hfp]
  exact bne_iff_ne.mp hne

/-- Witness for C6 on a one-keystroke run. -/
theorem empty_password_commit_guard_witness :
    (SWRKey.mk endpointURL "a" []).password ≠ "" :=
  (empty_password_commit_guard [(0, FieldName.password, "a")]).2
    ⟨ endpointURL, "a", [] ⟩ (by decide)

/-- Counterexample to C1 as stated: commit the password abc at time
1000, then type x into the email field at 1100 and xy at 1500. The two
email changes are 400ms apart, well inside the 1000ms window, yet a
request carrying the superseded intermediate related term x is issued,
because the useSWR key reads the live related terms instead of waiting
for the debounce commit. -/
theorem intermediate_related_term_requested :
    (run [(0, FieldName.password, "abc"), (1100, FieldName.email, "x"),
      (1500, FieldName.email, "xy")]).requests =
      [ ⟨ endpointURL, "abc", [] ⟩, ⟨ endpointURL, "abc", ["x"] ⟩,
        ⟨ endpointURL, "abc", ["xy"] ⟩ ] := by decide

/-- C1 amended: the commit-time guarantee holds for the password
component only: every issued request targets the fixed endpoint and
carries a password that was committed at a timer firing after a quiet
window, never a password value superseded within the window; the
related-term component is read live at render time and may reflect
values that are later superseded within a window. -/
theorem request_password_always_committed (tr : List (Nat × FieldName × String))
    (r : SWRKey) (hr : r ∈ (run tr).requests) :
    r.url = endpointURL ∧ r.password ∈ (run tr).commits :=
  ⟨ ((reqInv_run tr).2 r hr).1, ((reqInv_run tr).2 r hr).2.1 ⟩

/-- Witness for the amended C1 on a one-keystroke run. -/
theorem request_password_always_committed_witness :
    (SWRKey.mk endpointURL "pw1" []).url = endpointURL ∧
    (SWRKey.mk endpointURL "pw1" []).password ∈
      (run [(0, FieldName.password, "pw1")]).commits :=
  request_password_always_committed [(0, FieldName.password, "pw1")]
    ⟨ endpointURL, "pw1", [] ⟩ (by decide)

/-- C7: the fetcher performs a single POST of the body with fields
password and related_terms and adds no header, no timeout and no retry,
and every request key of any run targets the fixed endpoint URL and
carries the related-term list of a render, that is the email, firstName,
lastName, middleName values in order with empty values excluded. -/
theorem scoring_request_shape :
    (∀ url pw ts, fetcher url pw ts =
      { method := "POST", url := url,
        body := { password := pw, related_terms := ts },
        headers := [], timeout := none, retries := 0 }) ∧
    ∀ tr : List (Nat × FieldName × String), ∀ r ∈ (run tr).requests,
      r.url = endpointURL ∧
      ∃ fs : FormFields, r.terms = (relatedList fs).filter (fun e => e != "") := by
  constructor
  · intro url pw ts; rfl
  · intro tr r hr
    exact ⟨ ((reqInv_run tr).2 r hr).1, ((reqInv_run tr).2 r hr).2.2 ⟩

/-- Witness for C7: the fetcher output at concrete arguments, and the
key of a one-keystroke run. -/
theorem scoring_request_shape_witness :
    fetcher endpointURL "pw" ["t"] =
      { method := "POST", url := endpointURL,
        body := { password := "pw", related_terms := ["t"] },
        headers := [], timeout := none, retries := 0 } ∧
    (SWRKey.mk endpointURL "pw2" []).url = endpointURL :=
  ⟨ scoring_request_shape.1 endpointURL "pw" ["t"],
    (scoring_request_shape.2 [(0, FieldName.password, "pw2")]
      ⟨ endpointURL, "pw2", [] ⟩ (by decide)).1 ⟩

/-- C9: once a non-empty password has been committed into the debounced
cell, no later events, password clearings included, ever reset it: at
the end of any extension of the run the debounced password is still
non-empty, still equals the last committed snapshot password, and the
scoring key is still active with exactly that password and the live
filtered related terms. -/
theorem committed_snapshot_persists (tr ext : List (Nat × FieldName × String))
    (h : (runRaw tr).debouncedPassword ≠ "") :
    (run (tr ++ ext)).debouncedPassword ≠ "" ∧
    (run (tr ++ ext)).debouncedPassword = (((run (tr ++ ext)).commits).getLast?).getD "" ∧
    swrKey (run (tr ++ ext)).debouncedPassword (run (tr ++ ext)).fields =
      some ⟨ endpointURL, (run (tr ++ ext)).debouncedPassword,
        (relatedList (run (tr ++ ext)).fields).filter (fun e => e != "") ⟩ := by
  have h1 : (runRaw (tr ++ ext)).debouncedPassword ≠ "" := by
    unfold runRaw
    rw [List.foldl_append]
    exact dp_ne_foldl ext _ h
  have h2 : (run (tr ++ ext)).debouncedPassword ≠ "" := dp_ne_finalFire _ h1
  refine ⟨ h2, dpAligned_run (tr ++ ext), ?_ ⟩
  unfold swrKey
  rw [if_neg h2]

/-- Witness for C9: commit a at time 1000, then clear the password at
2500; the debounced cell still holds a non-empty value at the end. -/
theorem committed_snapshot_persists_witness :
    (run ([(0, FieldName.password, "a"), (2000, FieldName.email, "x")] ++
      [(2500, FieldName.password, "")])).debouncedPassword ≠ "" :=
  (committed_snapshot_persists [(0, FieldName.password, "a"), (2000, FieldName.email, "x")]
    [(2500, FieldName.password, "")] (by decide)).1

end RainSignup
